import Mathlib

/-!
Shallow embedding of the core of `taoli.py` (token-bucket rate limiter,
retrying HTTP fetcher, TTL cache, caching decorator, arbitrage cost model,
LI.FI quote refinement, arbitrage scanner), together with proofs about it.

Modelling conventions:
* Python floats are idealised as rationals (`ℚ`); `time.time()` instants are
  passed explicitly as rational arguments.
* Python `round(x, n)` is modelled as round-half-to-even on the rational value
  at `n` decimal digits.
* Python dicts of heterogeneous values (the cost-detail dicts) are modelled as
  insertion-ordered association lists over a small JSON-like value type.
* Network / filesystem effects are supplied by an explicit `World` argument
  describing the outcome of each external call.
-/

namespace Taoli

/-- Round-half-to-even of a rational to an integer (the rounding used by
Python `round` on the idealised rational value). -/
def roundHalfEven (q : ℚ) : ℤ :=
  let f : ℤ := ⌊q⌋
  let r : ℚ := q - f
  if r < 1/2 then f
  else if r > 1/2 then f + 1
  else if f % 2 = 0 then f else f + 1

/-- Python `round(x, n)` on the rational idealisation of a float. -/
def pyRound (q : ℚ) (n : ℕ) : ℚ :=
  (roundHalfEven (q * 10 ^ n) : ℚ) / 10 ^ n

/-- Values stored in the cost-detail dictionaries: floats, strings,
`None`, booleans. -/
inductive JVal where
  | num (q : ℚ)
  | str (s : String)
  | null
  | boolean (b : Bool)
deriving DecidableEq, Repr

/-- A Python dict with string keys, as an insertion-ordered association list. -/
abbrev Dict := List (String × JVal)

/-- Python `d[k] = v`: update in place if the key exists, else append
(insertion order). -/
def dictSet (d : Dict) (k : String) (v : JVal) : Dict :=
  if d.any (fun p => p.1 = k) then
    d.map (fun p => if p.1 = k then (k, v) else p)
  else
    d ++ [(k, v)]

/-- Python `d[k]` / `d.get(k)`: first (and only) binding of the key. -/
def dictLookup (d : Dict) (k : String) : Option JVal :=
  match d with
  | [] => none
  | p :: rest => if p.1 = k then some p.2 else dictLookup rest k

/-- Python `d.get(k, default)` restricted to numeric values (the numeric
fields read back out of cost-detail dicts). -/
def pyGetNum (d : Dict) (k : String) (dflt : ℚ) : ℚ :=
  match dictLookup d k with
  | some (JVal.num q) => q
  | _ => dflt

/-! ### The base cost model (`calculate_arbitrage_cost`, taoli.py lines 1956-2014) -/

/-- Embedding of `calculate_arbitrage_cost`.  The returned association list
mirrors the Python dict literally, including the `round(...)` calls and the
guard path for non-positive prices (which returns a dict without the
break-even / chain keys). -/
def calculate_arbitrage_cost (trade_amount_usd src_price dst_price : ℚ)
    (src_chain dst_chain : String)
    (src_gas_usd dst_gas_usd bridge_fee_usd slippage_pct : ℚ) : Dict :=
  if src_price ≤ 0 ∨ dst_price ≤ 0 then
    [("理论价差利润", JVal.num 0), ("总成本", JVal.num 0),
     ("Gas费（源链）", JVal.num 0), ("Gas费（目标链）", JVal.num 0),
     ("跨链桥费", JVal.num 0), ("滑点损失", JVal.num 0),
     ("预估净利润", JVal.num 0), ("预估净利润率", JVal.num 0),
     ("价差百分比", JVal.num 0)]
  else
    let spread_pct := (dst_price - src_price) / src_price * 100
    let theoretical_profit := trade_amount_usd * (spread_pct / 100)
    let slippage_loss := trade_amount_usd * (slippage_pct / 100)
    let fixed_cost := src_gas_usd + dst_gas_usd + bridge_fee_usd
    let total_cost := fixed_cost + slippage_loss
    let real_profit := theoretical_profit - total_cost
    let profit_margin := real_profit / trade_amount_usd * 100
    let effective_edge := spread_pct - slippage_pct
    let min_trade_amount : Option ℚ :=
      if effective_edge > 0 ∧ fixed_cost > 0 then
        some (fixed_cost * 100 / effective_edge)
      else none
    [("理论价差利润", JVal.num (pyRound theoretical_profit 2)),
     ("总成本", JVal.num (pyRound total_cost 2)),
     ("Gas费（源链）", JVal.num (pyRound src_gas_usd 2)),
     ("Gas费（目标链）", JVal.num (pyRound dst_gas_usd 2)),
     ("跨链桥费", JVal.num (pyRound bridge_fee_usd 2)),
     ("滑点损失", JVal.num (pyRound slippage_loss 2)),
     ("预估净利润", JVal.num (pyRound real_profit 2)),
     ("预估净利润率", JVal.num (pyRound profit_margin 3)),
     ("价差百分比", JVal.num (pyRound spread_pct 3)),
     ("盈亏平衡资金规模",
       match min_trade_amount with
       | some m => JVal.num (pyRound m 2)
       | none => JVal.null),
     ("源链", JVal.str src_chain), ("目标链", JVal.str dst_chain)]

/-! ### Token-bucket rate limiter (`RateLimiter`, taoli.py lines 121-208)

The constructor parameters `requests_per_second` and `burst_size` are never
written after `__init__`, so they are threaded as function parameters `rps`
and `burst`; the mutable fields form the state record.  Each `acquire` call
happens at instant `now`; when the call sleeps, the instant after the sleep
is `t2`, constrained in the step relation by the slept duration
(`time.sleep(wait_time)` guarantees `t2 ≥ now + wait_time`). -/

structure RateLimiter where
  tokens : ℚ
  last_refill_time : ℚ
  last_request_time : ℚ
  total_requests : ℕ
  rate_limited_count : ℕ
deriving Repr

/-- `RateLimiter.__init__`: `tokens = float(burst_size)`,
`last_refill_time = time.time()` (the construction instant `t0`),
`last_request_time = 0.0`. -/
def RateLimiter.init (burst t0 : ℚ) : RateLimiter :=
  ⟨burst, t0, 0, 0, 0⟩

/-- `RateLimiter._refill_tokens` at instant `now`. -/
def RateLimiter.refill_tokens (rps burst : ℚ) (s : RateLimiter) (now : ℚ) :
    RateLimiter :=
  let elapsed := now - s.last_refill_time
  if elapsed > 0 then
    { s with tokens := min burst (s.tokens + elapsed * rps),
             last_refill_time := now }
  else s

/-- `RateLimiter.acquire(wait)` executed at instant `now`; if the call sleeps,
it wakes at instant `t2`.  Returns the successor state and the boolean
result. -/
def RateLimiter.acquire (rps burst : ℚ) (s : RateLimiter) (now t2 : ℚ)
    (wait : Bool) : RateLimiter × Bool :=
  let s1 := RateLimiter.refill_tokens rps burst s now
  if s1.tokens ≥ 1 then
    ({ s1 with tokens := s1.tokens - 1, last_request_time := now,
               total_requests := s1.total_requests + 1 }, true)
  else
    let wait_time := 1 / rps - (now - s1.last_request_time)
    if wait_time > 0 then
      if wait then
        let s2 := RateLimiter.refill_tokens rps burst s1 t2
        if s2.tokens ≥ 1 then
          ({ s2 with tokens := s2.tokens - 1, last_request_time := t2,
                     total_requests := s2.total_requests + 1 }, true)
        else
          ({ s2 with rate_limited_count := s2.rate_limited_count + 1 }, false)
      else
        ({ s1 with rate_limited_count := s1.rate_limited_count + 1 }, false)
    else
      ({ s1 with tokens := s1.tokens - 1, last_request_time := now,
                 total_requests := s1.total_requests + 1 }, true)

/-- States reachable by any sequence of `acquire` calls with nondecreasing
time (the spec's data model declares the limiter's clock monotonic); when a
call sleeps, the wake instant `t2` is at least `now + wait_time`. -/
inductive RateLimiter.Reach (rps burst : ℚ) : RateLimiter → Prop where
  | init (t0 : ℚ) : RateLimiter.Reach rps burst (RateLimiter.init burst t0)
  | step (s : RateLimiter) (now t2 : ℚ) (wait : Bool) :
      RateLimiter.Reach rps burst s →
      s.last_refill_time ≤ now →
      s.last_request_time ≤ now →
      1 / rps - (now - s.last_request_time) ≤ t2 - now →
      RateLimiter.Reach rps burst (RateLimiter.acquire rps burst s now t2 wait).1

/-- The invariant carried through the reachability induction. -/
def RateLimiter.Inv (rps burst : ℚ) (s : RateLimiter) : Prop :=
  0 ≤ s.tokens ∧ s.tokens ≤ burst ∧
  min burst (rps * (s.last_refill_time - s.last_request_time)) ≤ s.tokens

/-! ### Resilient fetcher (`make_rate_limited_request`, taoli.py lines 218-306)

The outcome of each `requests.get` call is supplied by an attempt oracle
indexed by the retry counter (the loop performs exactly one request per
iteration and increments `retry_count` on every non-returning path).
`raise_for_status()` raises `requests.exceptions.HTTPError` for any 4xx/5xx
status; `HTTPError` is a subclass of `RequestException` but not of
`Timeout`, so it is caught by the generic `except RequestException` handler
at line 296.  Sleeps are recorded in order. -/

inductive RetryAfterHeader where
  | absent
  | malformed (s : String)
  | numeric (q : ℚ)
deriving DecidableEq, Repr

inductive Attempt where
  | timeout
  | connError
  | response (status : ℕ) (retryAfter : RetryAfterHeader)
deriving DecidableEq, Repr

inductive FetchOutcome where
  | success (attemptIdx status : ℕ)
  | raiseTimeout
  | raiseHTTPError (status : ℕ)
  | raiseConnError
  | loopExhausted
deriving DecidableEq, Repr

def API_RATE_LIMIT_BACKOFF_FACTOR : ℚ := 2

def API_RATE_LIMIT_MAX_RETRY_DELAY : ℚ := 60

def API_RETRY_TIMES : ℕ := 3

/-- The delay chosen for a 429 response at the given `retry_count`: the
parsed `Retry-After` header when it parses (no cap applied on that path),
else the exponential backoff (capped only on the header-absent path,
mirroring lines 261-271). -/
def backoff429 (retry_count : ℕ) (ra : RetryAfterHeader) : ℚ :=
  match ra with
  | RetryAfterHeader.numeric q => q
  | RetryAfterHeader.malformed _ =>
      1 * API_RATE_LIMIT_BACKOFF_FACTOR ^ retry_count
  | RetryAfterHeader.absent =>
      min (1 * API_RATE_LIMIT_BACKOFF_FACTOR ^ retry_count)
        API_RATE_LIMIT_MAX_RETRY_DELAY

/-- One execution of the `while retry_count <= max_retries` loop body and
its continuation; `fuel` bounds the recursion (the counter strictly
increases each iteration, so `max_retries + 1` units suffice). -/
def fetchGo (max_retries : ℕ) (att : ℕ → Attempt) (retry_count fuel : ℕ) :
    FetchOutcome × List ℚ :=
  match fuel with
  | 0 => (FetchOutcome.loopExhausted, [])
  | fuel + 1 =>
    if retry_count > max_retries then (FetchOutcome.loopExhausted, []) else
    match att retry_count with
    | Attempt.timeout =>
        if retry_count + 1 ≤ max_retries then
          let r := fetchGo max_retries att (retry_count + 1) fuel
          (r.1, 1 * API_RATE_LIMIT_BACKOFF_FACTOR ^ retry_count :: r.2)
        else (FetchOutcome.raiseTimeout, [])
    | Attempt.connError =>
        if retry_count + 1 ≤ max_retries then
          let r := fetchGo max_retries att (retry_count + 1) fuel
          (r.1, 1 * API_RATE_LIMIT_BACKOFF_FACTOR ^ retry_count :: r.2)
        else (FetchOutcome.raiseConnError, [])
    | Attempt.response status ra =>
        if status = 429 then
          if retry_count < max_retries then
            let r := fetchGo max_retries att (retry_count + 1) fuel
            (r.1, backoff429 retry_count ra :: r.2)
          else (FetchOutcome.raiseHTTPError 429, [])
        else if status ≥ 400 then
          -- raise_for_status raises HTTPError, caught by the generic
          -- RequestException handler (line 296): retried with backoff
          if retry_count + 1 ≤ max_retries then
            let r := fetchGo max_retries att (retry_count + 1) fuel
            (r.1, 1 * API_RATE_LIMIT_BACKOFF_FACTOR ^ retry_count :: r.2)
          else (FetchOutcome.raiseHTTPError status, [])
        else (FetchOutcome.success retry_count status, [])

/-- `make_rate_limited_request` with the given attempt oracle: outcome and
the list of retry sleeps, in order. -/
def make_rate_limited_request (att : ℕ → Attempt)
    (max_retries : ℕ := API_RETRY_TIMES) : FetchOutcome × List ℚ :=
  fetchGo max_retries att 0 (max_retries + 1)

/-! ### TTL cache (`CacheEntry` / `APICache`, taoli.py lines 311-357) and the
caching decorator (`cached`, lines 359-379)

The cache is polymorphic in the stored value type; `time.time()` is passed
explicitly.  For the decorator, stored Python values may themselves be
`None`, so the wrapped function's value type is `Option β` and the decorator
treats both a miss and a stored `None` as «not cached» (`is not None`). -/

structure CacheEntry (α : Type) where
  value : α
  expire_time : ℚ
deriving Repr

/-- `CacheEntry.__init__(value, ttl)` at instant `now`:
`expire_time = time.time() + ttl`. -/
def CacheEntry.make (value : α) (ttl now : ℚ) : CacheEntry α :=
  ⟨value, now + ttl⟩

/-- `CacheEntry.is_expired` at instant `now`: `time.time() > expire_time`. -/
def CacheEntry.is_expired (e : CacheEntry α) (now : ℚ) : Bool :=
  decide (e.expire_time < now)

structure APICache (α : Type) where
  cache : String → Option (CacheEntry α)
  hit_count : ℕ
  miss_count : ℕ

def APICache.empty : APICache α := ⟨fun _ => none, 0, 0⟩

/-- `APICache.get` at instant `now`: miss when absent or past expiry; an
expired entry is deleted lazily; counters updated as in the source. -/
def APICache.get (c : APICache α) (key : String) (now : ℚ) :
    Option α × APICache α :=
  match c.cache key with
  | none => (none, { c with miss_count := c.miss_count + 1 })
  | some entry =>
    if entry.is_expired now then
      (none,
        { c with
            cache := (fun k => if k = key then none else c.cache k),
            miss_count := c.miss_count + 1 })
    else
      (some entry.value, { c with hit_count := c.hit_count + 1 })

/-- `APICache.set` at instant `now`. -/
def APICache.set (c : APICache α) (key : String) (value : α) (ttl now : ℚ) :
    APICache α :=
  { c with cache := (fun k =>
      if k = key then some (CacheEntry.make value ttl now) else c.cache k) }

def CACHE_TTL_DEFAULT : ℚ := 10

/-- The key built by the `cached` decorator's wrapper:
`f"{func.__name__}_{hash((args, tuple(sorted(kwargs.items()))))}"`, with the
argument hash idealised as an injective integer encoding of the argument
tuple. -/
def cacheKey (funcName : String) (argsHash : ℤ) : String :=
  funcName ++ "_" ++ toString argsHash

structure CachedCallResult (β : Type) where
  result : Option β
  cache : APICache (Option β)
  invoked : Bool

/-- One call through the `cached(ttl)` decorator's wrapper around `func`,
with the global cache state `c` passed explicitly and the call happening at
instant `now`.  `func` returns `Option β` because a Python function may
return `None`; the cache stores Python values, which may also be `None`.
`invoked` records whether line 373 (`result = func(*args, **kwargs)`) ran. -/
def cachedCall (func : ℤ → Option β) (funcName : String) (ttl : Option ℚ)
    (c : APICache (Option β)) (now : ℚ) (argsHash : ℤ) : CachedCallResult β :=
  let actual_ttl := ttl.getD CACHE_TTL_DEFAULT
  let key := cacheKey funcName argsHash
  let g := c.get key now
  match g.1 with
  | some (some v) => ⟨some v, g.2, false⟩
  | _ =>
      -- `cached_value is None`: both a miss and a stored None fall through
      match func argsHash with
      | some r => ⟨some r, g.2.set key (some r) actual_ttl now, true⟩
      | none => ⟨none, g.2, true⟩

/-! ### LI.FI quote refinement (`refine_cost_with_lifi`, taoli.py lines
2125-2544) and helpers

Statuses come from `fetch_all_stable_status` and always carry `chain` and
`price`; `token_address`, `symbol` and `liquidity_usd` are read with `.get`
and may be absent (`none`).  All external effects (`load_global_config`,
the quote request, `get_lifi_gas_prices`, `get_lifi_supported_chains`) are
supplied through an explicit `World`.  Skip-reason strings reproduce the
source's branch structure and literal prefixes; Python single quotes inside
messages are dropped. -/

structure Status where
  name : String
  chain : String
  price : ℚ
  token_address : Option String
  symbol : Option String
  liquidity_usd : Option ℚ
deriving DecidableEq, Repr

/-- `CHAIN_NAME_TO_ID` (taoli.py lines 499-514). -/
def CHAIN_NAME_TO_ID : List (String × ℤ) :=
  [("ethereum", 1), ("bsc", 56), ("polygon", 137), ("arbitrum", 42161),
   ("optimism", 10), ("base", 8453), ("avalanche", 43114), ("hyperevm", 998),
   ("zksync", 324), ("linea", 59144), ("scroll", 534352), ("mantle", 5000),
   ("blast", 81457), ("mode", 34443)]

/-- Python `dict.get` on a string-keyed integer dict. -/
def dictGetInt (d : List (String × ℤ)) (k : String) : Option ℤ :=
  match d with
  | [] => none
  | p :: rest => if p.1 = k then some p.2 else dictGetInt rest k

/-- Python falsiness of an optional integer (`if not src_chain_id`). -/
def pyFalsyId (o : Option ℤ) : Bool :=
  match o with
  | none => true
  | some v => decide (v = 0)

/-- Python falsiness of an optional string (`if not src_token`). -/
def pyFalsyStr (o : Option String) : Bool :=
  match o with
  | none => true
  | some s => decide (s = "")

/-- Python string interpolation of a possibly-`None` string. -/
def pyShowOptStr (o : Option String) : String := o.getD "None"

/-- Python `pat in s` on strings. -/
def pyIn (pat s : String) : Bool :=
  decide (pat = "") || decide ((s.splitOn pat).length ≠ 1)

/-- Python `int()` truncation of a float towards zero. -/
def pyInt (q : ℚ) : ℤ := if q ≥ 0 then ⌊q⌋ else ⌈q⌉

/-- `_guess_decimals_from_symbol` (taoli.py lines 2111-2122). -/
def _guess_decimals_from_symbol (symbol : Option String) : ℕ :=
  match symbol with
  | none => 18
  | some s =>
    if s = "" then 18
    else if ["USDT", "USDC", "USDT.E", "USDC.E"].contains s.toUpper then 6
    else 18

structure GlobalConfig where
  lifi_api_key : String
  lifi_from_address : String
deriving DecidableEq, Repr

structure GasPrices where
  standard : ℚ
  fast : ℚ
  fastest : ℚ
deriving DecidableEq, Repr

structure LifiToken where
  priceUSD : Option ℚ
  decimals : Option ℤ
deriving DecidableEq, Repr

structure LifiFeeCost where
  token : LifiToken
  amount : Option ℚ
  name : String
deriving DecidableEq, Repr

structure LifiGasCost where
  chainId : Option ℤ
  token : LifiToken
  amount : Option ℚ
deriving DecidableEq, Repr

structure LifiStep where
  tool : String
  feeCosts : List LifiFeeCost
deriving DecidableEq, Repr

/-- The `estimate.toAmount` field: absent/falsy, present but not an integer
literal (`int()` raises `ValueError`), or an integer. -/
inductive ToAmountField where
  | missing
  | unparsable (s : String)
  | val (n : ℤ)
deriving DecidableEq, Repr

structure LifiEstimate where
  toAmount : ToAmountField
  gasCosts : List LifiGasCost
  feeCosts : List LifiFeeCost
deriving DecidableEq, Repr

structure LifiData where
  estimate : LifiEstimate
  steps : List LifiStep
deriving DecidableEq, Repr

/-- Body of a non-ok quote response: `resp.json()` either raises (the raw
text is used) or yields a dict with `message` and `code`. -/
inductive LifiErrorBody where
  | unparsable (text : String)
  | parsed (message : String) (code : ℤ)
deriving DecidableEq, Repr

/-- Outcome of the `requests.get("https://li.quest/v1/quote", ...)` call:
the request (or `resp.json()`) raised, the response was not ok, or it was
ok with parsed data. -/
inductive LifiQuoteResponse where
  | raised (msg : String)
  | notOk (status : ℕ) (body : LifiErrorBody)
  | ok (data : LifiData)
deriving DecidableEq, Repr

/-- Outcomes of every external call `refine_cost_with_lifi` can make. -/
structure World where
  config : Option GlobalConfig
  quote : LifiQuoteResponse
  gasPrices : ℤ → Option GasPrices
  supportedChains : Option (List (ℤ × String))

/-- `get_lifi_gas_prices` (taoli.py lines 2039-2073), as observed through
the world. -/
def get_lifi_gas_prices (w : World) (chain_id : ℤ) : Option GasPrices :=
  w.gasPrices chain_id

/-- `get_lifi_supported_chains` (taoli.py lines 2017-2036), as observed
through the world. -/
def get_lifi_supported_chains (w : World) : Option (List (ℤ × String)) :=
  w.supportedChains

/-- `estimate_gas_cost_usd` (taoli.py lines 2076-2108); the hard-coded ETH
price is 2500 USD. -/
def estimate_gas_cost_usd (w : World) (chain_id : ℤ)
    (gas_price_gwei : Option ℚ) (gas_limit : ℤ) : Option ℚ :=
  let gp : Option ℚ :=
    match gas_price_gwei with
    | none =>
      match get_lifi_gas_prices w chain_id with
      | some gps => some gps.fast
      | none => none
    | some g => some g
  match gp with
  | none => none
  | some g =>
    if g ≤ 0 then none
    else some ((gas_limit * g) / 10 ^ 9 * 2500)

/-- Python `sep.join(items)`. -/
def pyJoin (sep : String) : List String → String
  | [] => ""
  | [a] => a
  | a :: b :: rest => a ++ sep ++ pyJoin sep (b :: rest)

def LIFI_SKIP_KEY : String := "LI.FI_跳过原因"

/-- Setting the skip-reason key on the base cost detail
(`base_cost_detail["LI.FI_跳过原因"] = skip_reason`). -/
def skipWith (base : Dict) (reason : String) : Dict :=
  dictSet base LIFI_SKIP_KEY (JVal.str reason)

/-- The skip reason built in the not-ok branch (taoli.py lines 2246-2305);
single quotes dropped, chain-id lists rendered with `toString`. -/
def lifiNotOkReason (w : World) (src_chain dst_chain : String)
    (src_chain_id dst_chain_id : ℤ) (status : ℕ) (body : LifiErrorBody) :
    String :=
  match body with
  | LifiErrorBody.unparsable text =>
    "LI.FI API 请求失败（HTTP " ++ toString status ++ "）: " ++ text.take 500
  | LifiErrorBody.parsed message code =>
    let ml := message.toLower
    let pairStr := src_chain ++ "(" ++ toString src_chain_id ++ ") -> "
      ++ dst_chain ++ "(" ++ toString dst_chain_id ++ ")"
    if pyIn "not supported" ml || pyIn "unsupported" ml then
      "LI.FI 不支持该链对（" ++ pairStr ++ "）: " ++ message
    else if pyIn "must be equal to one of the allowed values" ml
        || pyIn "must match exactly one schema" ml then
      let supported_chains := get_lifi_supported_chains w
      let supported_chain_ids : List ℤ :=
        match supported_chains with
        | some cs => cs.map Prod.fst
        | none => []
      let idsSuffix : String :=
        if supported_chain_ids ≠ [] then
          " LI.FI 支持的 chainId 包括: "
            ++ String.intercalate ", "
                (((supported_chain_ids.insertionSort (· ≤ ·)).take 20).map toString)
            ++ "..."
        else ""
      if pyIn "/toChain" message then
        match supported_chains with
        | some cs =>
          if cs.any (fun p => p.1 = dst_chain_id) then
            "LI.FI API 拒绝目标链 " ++ dst_chain ++ " (chainId: "
              ++ toString dst_chain_id
              ++ ")，虽然该 chainId 在支持的列表中，但可能不支持该链对或 token。错误详情: "
              ++ message
          else
            "LI.FI 不支持目标链 " ++ dst_chain ++ " (chainId: "
              ++ toString dst_chain_id ++ ")。" ++ idsSuffix
              ++ " 详情请查看: https://docs.li.fi/"
        | none =>
          "LI.FI 不支持目标链 " ++ dst_chain ++ " (chainId: "
            ++ toString dst_chain_id ++ ")。" ++ idsSuffix
            ++ " 详情请查看: https://docs.li.fi/"
      else if pyIn "/fromChain" message then
        match supported_chains with
        | some cs =>
          if cs.any (fun p => p.1 = src_chain_id) then
            "LI.FI API 拒绝源链 " ++ src_chain ++ " (chainId: "
              ++ toString src_chain_id
              ++ ")，虽然该 chainId 在支持的列表中，但可能不支持该链对或 token。错误详情: "
              ++ message
          else
            "LI.FI 不支持源链 " ++ src_chain ++ " (chainId: "
              ++ toString src_chain_id ++ ")。" ++ idsSuffix
              ++ " 详情请查看: https://docs.li.fi/"
        | none =>
          "LI.FI 不支持源链 " ++ src_chain ++ " (chainId: "
            ++ toString src_chain_id ++ ")。" ++ idsSuffix
            ++ " 详情请查看: https://docs.li.fi/"
      else
        "LI.FI 不支持该链对（" ++ pairStr ++ "）。" ++ idsSuffix
          ++ " 详情请查看: https://docs.li.fi/"
    else if code = 1011 && pyIn "same token" ml then
      "源 token 和目标 token 相同，LI.FI 不支持: " ++ message
    else
      "LI.FI API 请求失败（HTTP " ++ toString status ++ ", code "
        ++ toString code ++ "）: " ++ message

/-- The `missing_items` list of `refine_cost_with_lifi` (taoli.py lines
2152-2160). -/
def refineMissingItems (src_status dst_status : Status) : List String :=
  (if pyFalsyId (dictGetInt CHAIN_NAME_TO_ID src_status.chain) then
    ["源链 " ++ src_status.chain ++ " 不在 chainId 映射表中"] else []) ++
  (if pyFalsyId (dictGetInt CHAIN_NAME_TO_ID dst_status.chain) then
    ["目标链 " ++ dst_status.chain ++ " 不在 chainId 映射表中"] else []) ++
  (if pyFalsyStr src_status.token_address then
    ["源 token 地址为空（symbol: " ++ pyShowOptStr src_status.symbol ++ "）"] else []) ++
  (if pyFalsyStr dst_status.token_address then
    ["目标 token 地址为空（symbol: " ++ pyShowOptStr dst_status.symbol ++ "）"] else [])

/-- The successive checks of `refine_cost_with_lifi` up to and including
parsing `estimate.toAmount`, in source order.  `Except.error r` is an early
return with skip reason `r`; `Except.ok (data, n)` means the refinement
proceeds to the quote-processing code with response `data` and
`to_amount_int = n`. -/
def refineChecks (w : World) (src_status dst_status : Status)
    (trade_amount_usd : ℚ) : Except String (LifiData × ℤ) :=
  let src_chain := src_status.chain
  let dst_chain := dst_status.chain
  let src_chain_id := dictGetInt CHAIN_NAME_TO_ID src_chain
  let dst_chain_id := dictGetInt CHAIN_NAME_TO_ID dst_chain
  let src_token := src_status.token_address
  let dst_token := dst_status.token_address
  let src_symbol := src_status.symbol
  let missing_items := refineMissingItems src_status dst_status
  if missing_items ≠ [] then
    Except.error (pyJoin "；" missing_items)
  else if src_chain_id = dst_chain_id then
    Except.error ("源链和目标链相同（" ++ src_chain ++ "），无需跨链")
  else
    let src_token_lower := (src_token.getD "").toLower.trim
    let dst_token_lower := (dst_token.getD "").toLower.trim
    if src_token_lower = dst_token_lower then
      Except.error ("源 token 和目标 token 地址相同（" ++ src_token_lower.take 10
        ++ "...），LI.FI 不支持相同 token 的跨链")
    else
    let src_price := src_status.price
    let dst_price := dst_status.price
    if src_price ≤ 0 ∨ dst_price ≤ 0 then
      Except.error "价格数据无效"
    else
      let src_decimals := _guess_decimals_from_symbol src_symbol
      let src_amount_tokens := trade_amount_usd / src_price
      let from_amount_int := pyInt (src_amount_tokens * 10 ^ src_decimals)
      -- `from_amount_int` only feeds the request parameters, which the
      -- world's quote outcome already accounts for
      let _ := from_amount_int
      let from_address : String :=
        match w.config with
        | none => ""
        | some gcfg => gcfg.lifi_from_address.trim
      if from_address.length < 10 then
        Except.error "未设置 fromAddress（请在左侧面板的全局设置中配置 LI.FI fromAddress）"
      else
        match w.quote with
        | LifiQuoteResponse.raised msg =>
          Except.error ("LI.FI API 请求异常: " ++ msg)
        | LifiQuoteResponse.notOk status body =>
          Except.error (lifiNotOkReason w src_chain dst_chain
            ((dictGetInt CHAIN_NAME_TO_ID src_chain).getD 0)
            ((dictGetInt CHAIN_NAME_TO_ID dst_chain).getD 0) status body)
        | LifiQuoteResponse.ok data =>
          match data.estimate.toAmount with
          | ToAmountField.missing =>
            Except.error "LI.FI API 响应中缺少 estimate.toAmount 字段"
          | ToAmountField.unparsable s =>
            -- int(to_amount_str) raises ValueError, caught by the outer
            -- `except Exception` (lines 2540-2544)
            Except.error ("LI.FI 精算过程异常: invalid literal for int() with base 10: " ++ s)
          | ToAmountField.val n => Except.ok (data, n)

/-- The quote-processing tail of `refine_cost_with_lifi` (taoli.py lines
2325-2539): recompute profit from the actual output amount, override the
base components with itemised gas / bridge / fee costs where present, and
recompute total cost and net profit when anything was overridden. -/
def refineSuccess (w : World) (data : LifiData) (src_status dst_status : Status)
    (trade_amount_usd : ℚ) (base_cost_detail : Dict) (to_amount_int : ℤ) :
    Dict :=
  let src_chain_id := (dictGetInt CHAIN_NAME_TO_ID src_status.chain).getD 0
  let dst_chain_id := (dictGetInt CHAIN_NAME_TO_ID dst_status.chain).getD 0
  let src_price := src_status.price
  let dst_price := dst_status.price
  let dst_decimals := _guess_decimals_from_symbol dst_status.symbol
  let dst_amount_tokens := (to_amount_int : ℚ) / 10 ^ dst_decimals
  let src_amount_tokens := trade_amount_usd / src_price
  let theoretical_dst_tokens := src_amount_tokens * (dst_price / src_price)
  let theoretical_dst_usd := theoretical_dst_tokens * dst_price
  let actual_revenue_usd := dst_amount_tokens * dst_price
  let slippage_loss_from_lifi := theoretical_dst_usd - actual_revenue_usd
  -- gas costs itemised in the estimate (lines 2354-2372); the last matching
  -- entry per chain wins, as in the Python loop
  let gasPair : Option ℚ × Option ℚ :=
    data.estimate.gasCosts.foldl (fun acc gc =>
      match gc.amount, gc.token.priceUSD with
      | some amount, some price_usd =>
        let decimals := gc.token.decimals.getD 18
        let amount_float := amount / (10:ℚ) ^ decimals
        let gas_usd := amount_float * price_usd
        if gc.chainId = some src_chain_id then (some gas_usd, acc.2)
        else if gc.chainId = some dst_chain_id then (acc.1, some gas_usd)
        else acc
      | _, _ => acc) (none, none)
  -- fee costs split into bridge fees and other fees (lines 2376-2403)
  let feePair : List ℚ × List ℚ :=
    data.estimate.feeCosts.foldl (fun acc fc =>
      match fc.amount, fc.token.priceUSD with
      | some amount, some price_usd =>
        let decimals := fc.token.decimals.getD 18
        let fee_usd := amount / (10:ℚ) ^ decimals * price_usd
        let nm := fc.name.toLower
        if pyIn "bridge" nm || pyIn "cross" nm || pyIn "transfer" nm then
          (acc.1 ++ [fee_usd], acc.2)
        else (acc.1, acc.2 ++ [fee_usd])
      | _, _ => acc) ([], [])
  let bridge_fee_from_lifi0 : Option ℚ :=
    if feePair.1 ≠ [] then some feePair.1.sum else none
  let total_fees_from_lifi : Option ℚ :=
    if feePair.2 ≠ [] then some feePair.2.sum else none
  -- fallback: derive the bridge fee from bridge-tool steps (lines 2405-2430);
  -- entered when the bridge fee so far is falsy (None or 0.0)
  let bridge_fee_from_lifi : Option ℚ :=
    if bridge_fee_from_lifi0.getD 0 = 0 ∧ data.steps ≠ [] then
      data.steps.foldl (fun bf step =>
        if pyIn "bridge" step.tool.toLower ∧ step.feeCosts ≠ [] then
          step.feeCosts.foldl (fun bf2 fc =>
            match fc.amount, fc.token.priceUSD with
            | some amount, some price_usd =>
              let decimals := fc.token.decimals.getD 18
              let fee_usd := amount / (10:ℚ) ^ decimals * price_usd
              some (bf2.getD 0 + fee_usd)
            | _, _ => bf2) bf
        else bf) bridge_fee_from_lifi0
    else bridge_fee_from_lifi0
  -- gas fallback through the gas-price endpoint (lines 2432-2454)
  let src_gas_from_lifi : Option ℚ :=
    match gasPair.1 with
    | some g => some g
    | none =>
      match get_lifi_gas_prices w src_chain_id with
      | some src_gas_prices =>
        match estimate_gas_cost_usd w src_chain_id (some src_gas_prices.fast)
            100000 with
        | some est => if est ≠ 0 then some est else none
        | none => none
      | none => none
  let dst_gas_from_lifi : Option ℚ :=
    match gasPair.2 with
    | some g => some g
    | none =>
      match get_lifi_gas_prices w dst_chain_id with
      | some dst_gas_prices =>
        match estimate_gas_cost_usd w dst_chain_id (some dst_gas_prices.fast)
            100000 with
        | some est => if est ≠ 0 then some est else none
        | none => none
      | none => none
  let revenue_usd := dst_amount_tokens * dst_price
  let real_profit := revenue_usd - trade_amount_usd
  let profit_margin := real_profit / trade_amount_usd * 100
  let spread_pct := (dst_price - src_price) / src_price * 100
  let theoretical_profit := trade_amount_usd * (spread_pct / 100)
  let total_cost_est := theoretical_profit - real_profit
  let refined := dictSet base_cost_detail "理论价差利润" (JVal.num (pyRound theoretical_profit 2))
  let refined := dictSet refined "总成本" (JVal.num (pyRound total_cost_est 2))
  let refined := dictSet refined "预估净利润" (JVal.num (pyRound real_profit 2))
  let refined := dictSet refined "预估净利润率" (JVal.num (pyRound profit_margin 3))
  let refined := dictSet refined "LI.FI_到手数量" (JVal.num (pyRound dst_amount_tokens 6))
  let refined := dictSet refined "LI.FI_数据来源" (JVal.str "li.quest quote")
  let updated_src_gas := pyGetNum base_cost_detail "Gas费（源链）" 0
  let updated_dst_gas := pyGetNum base_cost_detail "Gas费（目标链）" 0
  let updated_bridge_fee := pyGetNum base_cost_detail "跨链桥费" 0
  let updated_slippage_loss := pyGetNum base_cost_detail "滑点损失" 0
  let srcGasUpd : ℚ × Dict :=
    match src_gas_from_lifi with
    | some g =>
      (g, dictSet (dictSet refined "Gas费（源链）" (JVal.num (pyRound g 2)))
        "LI.FI_源链Gas来源" (JVal.str "LI.FI API"))
    | none => (updated_src_gas, refined)
  let updated_src_gas := srcGasUpd.1
  let refined := srcGasUpd.2
  let dstGasUpd : ℚ × Dict :=
    match dst_gas_from_lifi with
    | some g =>
      (g, dictSet (dictSet refined "Gas费（目标链）" (JVal.num (pyRound g 2)))
        "LI.FI_目标链Gas来源" (JVal.str "LI.FI API"))
    | none => (updated_dst_gas, refined)
  let updated_dst_gas := dstGasUpd.1
  let refined := dstGasUpd.2
  let bridgeUpd : ℚ × Dict :=
    match bridge_fee_from_lifi with
    | some g =>
      (g, dictSet (dictSet refined "跨链桥费" (JVal.num (pyRound g 2)))
        "LI.FI_跨链桥费来源" (JVal.str "LI.FI API"))
    | none => (updated_bridge_fee, refined)
  let updated_bridge_fee := bridgeUpd.1
  let refined := bridgeUpd.2
  let refined :=
    match total_fees_from_lifi with
    | some t =>
      if t > 0 then
        dictSet (dictSet refined "其他手续费" (JVal.num (pyRound t 2)))
          "LI.FI_其他手续费来源" (JVal.str "LI.FI API")
      else refined
    | none => refined
  let slipUpd : ℚ × Dict :=
    if slippage_loss_from_lifi > 0 then
      let known_costs := src_gas_from_lifi.getD 0 + dst_gas_from_lifi.getD 0
        + bridge_fee_from_lifi.getD 0 + total_fees_from_lifi.getD 0
      let pure_slippage_loss := max 0 (slippage_loss_from_lifi - known_costs)
      if pure_slippage_loss > 0 then
        let refined := dictSet refined "滑点损失" (JVal.num (pyRound pure_slippage_loss 2))
        let refined := dictSet refined "LI.FI_滑点损失来源" (JVal.str "LI.FI API")
        let refined :=
          if theoretical_dst_usd > 0 then
            dictSet (dictSet refined "滑点百分比"
                (JVal.num (pyRound (pure_slippage_loss / theoretical_dst_usd * 100) 3)))
              "LI.FI_滑点百分比来源" (JVal.str "LI.FI API")
          else refined
        (pure_slippage_loss, refined)
      else (updated_slippage_loss, refined)
    else (updated_slippage_loss, refined)
  let updated_slippage_loss := slipUpd.1
  let refined := slipUpd.2
  let total_cost_from_lifi0 := updated_src_gas + updated_dst_gas
    + updated_bridge_fee + updated_slippage_loss
  let total_cost_from_lifi :=
    match total_fees_from_lifi with
    | some t => total_cost_from_lifi0 + t
    | none => total_cost_from_lifi0
  if src_gas_from_lifi.isSome ∨ dst_gas_from_lifi.isSome
      ∨ bridge_fee_from_lifi.isSome ∨ total_fees_from_lifi.isSome
      ∨ (slippage_loss_from_lifi > 0
         ∧ updated_slippage_loss ≠ pyGetNum base_cost_detail "滑点损失" 0) then
    let np := pyRound (theoretical_profit - total_cost_from_lifi) 2
    let refined := dictSet refined "总成本" (JVal.num (pyRound total_cost_from_lifi 2))
    let refined := dictSet refined "预估净利润" (JVal.num np)
    let refined := dictSet refined "预估净利润率" (JVal.num (pyRound (np / trade_amount_usd * 100) 3))
    dictSet refined "LI.FI_费用数据完整" (JVal.boolean true)
  else refined

/-- `refine_cost_with_lifi`: every early return and the outer
`except Exception` handler produce the base dict plus a skip reason; a
successful quote is processed by `refineSuccess`.  The embedding is total —
the function never raises, mirroring lines 2540-2544. -/
def refine_cost_with_lifi (w : World) (src_status dst_status : Status)
    (trade_amount_usd : ℚ) (base_cost_detail : Dict) : Dict :=
  match refineChecks w src_status dst_status trade_amount_usd with
  | Except.error r => skipWith base_cost_detail r
  | Except.ok dn =>
    refineSuccess w dn.1 src_status dst_status trade_amount_usd
      base_cost_detail dn.2

/-- The shape of a failed refinement: the base cost detail with only a
populated skip-reason field added. -/
def SkipShape (w : World) (src dst : Status) (trade : ℚ) (base : Dict) :
    Prop :=
  ∃ r, r ≠ "" ∧
    refine_cost_with_lifi w src dst trade base = skipWith base r ∧
    dictLookup (refine_cost_with_lifi w src dst trade base) LIFI_SKIP_KEY
      = some (JVal.str r) ∧
    ∀ k, k ≠ LIFI_SKIP_KEY →
      dictLookup (refine_cost_with_lifi w src dst trade base) k
        = dictLookup base k

/-! ### Arbitrage scanner (`find_arbitrage_opportunities`, taoli.py lines
2549-2646) -/

def MIN_LIQUIDITY_USD : ℚ := 50000

structure ArbitrageOpportunity where
  name : String
  cheap_chain : String
  cheap_price : ℚ
  rich_chain : String
  rich_price : ℚ
  cost_detail : Dict
deriving DecidableEq, Repr

/-- Python `min(lst, key=lambda x: x["price"])` on a nonempty list: first
element of minimal price. -/
def pyMinByPrice (x : Status) (xs : List Status) : Status :=
  xs.foldl (fun m s => if s.price < m.price then s else m) x

/-- Python `max(lst, key=lambda x: x["price"])` on a nonempty list: first
element of maximal price. -/
def pyMaxByPrice (x : Status) (xs : List Status) : Status :=
  xs.foldl (fun m s => if s.price > m.price then s else m) x

/-- Adding one record to the `defaultdict(list)` grouping. -/
def groupStep (acc : List (String × List Status)) (s : Status) :
    List (String × List Status) :=
  if acc.any (fun p => p.1 = s.name) then
    acc.map (fun p => if p.1 = s.name then (p.1, p.2 ++ [s]) else p)
  else acc ++ [(s.name, [s])]

/-- `defaultdict(list)` grouping by `s["name"]`, preserving both key
insertion order and per-group record order. -/
def groupByName (statuses : List Status) : List (String × List Status) :=
  statuses.foldl groupStep []

/-- `opps.sort(key=lambda x: x["cost_detail"]["预估净利润"], reverse=True)`:
stable sort by net profit, descending. -/
def sortByNetProfitDesc (l : List ArbitrageOpportunity) :
    List ArbitrageOpportunity :=
  l.mergeSort (fun a b =>
    decide (pyGetNum b.cost_detail "预估净利润" 0
      ≤ pyGetNum a.cost_detail "预估净利润" 0))

/-- One iteration of the scanner's per-asset loop (taoli.py lines
2581-2642). -/
def scanStep (w : World)
    (trade_amount_usd src_gas_usd dst_gas_usd bridge_fee_usd slippage_pct
     min_profit_usd min_profit_rate min_spread_pct : ℚ)
    (opps : List ArbitrageOpportunity) (group : String × List Status) :
    List ArbitrageOpportunity :=
  let name := group.1
  let lst := group.2
  if lst.length < 2 then opps else
  match lst with
  | [] => opps
  | x :: xs =>
    let cheap := pyMinByPrice x xs
    let rich := pyMaxByPrice x xs
    if rich.price ≤ cheap.price then opps
    else
      let spread_pct := (rich.price - cheap.price) / cheap.price * 100
      if spread_pct < min_spread_pct then opps
      else if (match cheap.liquidity_usd with
               | some l => decide (l < MIN_LIQUIDITY_USD)
               | none => false) then opps
      else if (match rich.liquidity_usd with
               | some l => decide (l < MIN_LIQUIDITY_USD)
               | none => false) then opps
      else
        let cost_detail := calculate_arbitrage_cost trade_amount_usd
          cheap.price rich.price cheap.chain rich.chain src_gas_usd
          dst_gas_usd bridge_fee_usd slippage_pct
        let cost_detail := refine_cost_with_lifi w cheap rich
          trade_amount_usd cost_detail
        let net_profit := pyGetNum cost_detail "预估净利润" 0
        let net_margin := pyGetNum cost_detail "预估净利润率" 0
        if net_profit < min_profit_usd ∨ net_margin < min_profit_rate then
          opps
        else
          opps ++ [⟨name, cheap.chain, cheap.price, rich.chain, rich.price,
            cost_detail⟩]

/-- Embedding of `find_arbitrage_opportunities`. -/
def find_arbitrage_opportunities (w : World) (statuses : List Status)
    (trade_amount_usd src_gas_usd dst_gas_usd bridge_fee_usd slippage_pct
     min_profit_usd min_profit_rate min_spread_pct : ℚ) :
    List ArbitrageOpportunity :=
  let by_name := groupByName statuses
  let opps := by_name.foldl
    (scanStep w trade_amount_usd src_gas_usd dst_gas_usd bridge_fee_usd
      slippage_pct min_profit_usd min_profit_rate min_spread_pct) []
  sortByNetProfitDesc opps

/-! ### Theorems -/

theorem dictSet_lookup_self (d : Dict) (k : String) (v : JVal) :
    dictLookup (dictSet d k v) k = some v := by
  unfold dictSet
  split
  · rename_i h
    induction d with
    | nil => simp_all
    | cons hd tl ih =>
      simp only [List.any_cons, Bool.or_eq_true, decide_eq_true_eq] at h
      by_cases hk : hd.1 = k
      · simp [dictLookup, hk]
      · rcases h with h | h
        · exact absurd h hk
        · simp only [List.map_cons, if_neg hk, dictLookup, hk, if_false]
          exact ih h
  · rename_i h
    induction d with
    | nil => simp [dictLookup]
    | cons hd tl ih =>
      simp only [List.any_cons, Bool.or_eq_true, decide_eq_true_eq] at h
      push_neg at h
      simp only [List.cons_append, dictLookup, h.1, if_false]
      exact ih (by simpa using h.2)

theorem dictLookup_map_update_ne (d : Dict) (k k' : String) (v : JVal)
    (hne : k' ≠ k) :
    dictLookup (d.map (fun p => if p.1 = k then (k, v) else p)) k'
      = dictLookup d k' := by
  induction d with
  | nil => rfl
  | cons hd tl ih =>
    by_cases hk : hd.1 = k
    · simp only [List.map_cons, if_pos hk, dictLookup]
      rw [if_neg (fun h => hne h.symm), if_neg (fun h : hd.1 = k' => hne (hk ▸ h).symm)]
      exact ih
    · simp only [List.map_cons, if_neg hk, dictLookup]
      by_cases hk' : hd.1 = k'
      · rw [if_pos hk', if_pos hk']
      · rw [if_neg hk', if_neg hk']
        exact ih

theorem dictLookup_append_single_ne (d : Dict) (k k' : String) (v : JVal)
    (hne : k' ≠ k) :
    dictLookup (d ++ [(k, v)]) k' = dictLookup d k' := by
  induction d with
  | nil =>
    simp only [List.nil_append, dictLookup, if_neg (fun h : k = k' => hne h.symm)]
  | cons hd tl ih =>
    simp only [List.cons_append, dictLookup]
    by_cases hk' : hd.1 = k'
    · rw [if_pos hk', if_pos hk']
    · rw [if_neg hk', if_neg hk']
      exact ih

theorem dictSet_lookup_ne (d : Dict) (k k' : String) (v : JVal) (hne : k' ≠ k) :
    dictLookup (dictSet d k v) k' = dictLookup d k' := by
  unfold dictSet
  split
  · exact dictLookup_map_update_ne d k k' v hne
  · exact dictLookup_append_single_ne d k k' v hne

/-- Claim C9: when `src_price ≤ 0` or `dst_price ≤ 0`, `calculate_arbitrage_cost`
does not raise and returns the guard dict whose spread / profit / cost /
margin fields are all `0.0` and which contains no break-even-size or
source/destination-chain keys. -/
theorem calculate_arbitrage_cost_guard (trade src dst : ℚ) (sc dc : String)
    (g1 g2 bf sl : ℚ) (h : src ≤ 0 ∨ dst ≤ 0) :
    calculate_arbitrage_cost trade src dst sc dc g1 g2 bf sl =
      [("理论价差利润", JVal.num 0), ("总成本", JVal.num 0),
       ("Gas费（源链）", JVal.num 0), ("Gas费（目标链）", JVal.num 0),
       ("跨链桥费", JVal.num 0), ("滑点损失", JVal.num 0),
       ("预估净利润", JVal.num 0), ("预估净利润率", JVal.num 0),
       ("价差百分比", JVal.num 0)] ∧
    dictLookup (calculate_arbitrage_cost trade src dst sc dc g1 g2 bf sl)
      "盈亏平衡资金规模" = none ∧
    dictLookup (calculate_arbitrage_cost trade src dst sc dc g1 g2 bf sl)
      "源链" = none ∧
    dictLookup (calculate_arbitrage_cost trade src dst sc dc g1 g2 bf sl)
      "目标链" = none := by
  unfold calculate_arbitrage_cost
  rw [if_pos h]
  refine ⟨rfl, ?_, ?_, ?_⟩ <;> rfl

theorem calculate_arbitrage_cost_guard_witness :
    ((0:ℚ) ≤ 0 ∨ (1:ℚ) ≤ 0) ∧
    dictLookup (calculate_arbitrage_cost 5000 0 1 "bsc" "ethereum" 1 1 5 (1/2))
      "盈亏平衡资金规模" = none :=
  ⟨Or.inl le_rfl,
   (calculate_arbitrage_cost_guard 5000 0 1 "bsc" "ethereum" 1 1 5 (1/2)
     (Or.inl le_rfl)).2.1⟩

/-- Claim C5 counterexample: the returned spread field is the rounded value
`33.333`, not the exact `(rich-cheap)/cheap*100 = 100/3`, so the returned
fields do not satisfy the claimed equations exactly. -/
theorem calculate_arbitrage_cost_rounding_counterexample :
    dictLookup (calculate_arbitrage_cost 1000 3 4 "bsc" "ethereum" 0 0 0 0)
      "价差百分比" = some (JVal.num (33333/1000)) ∧
    dictLookup (calculate_arbitrage_cost 1000 3 4 "bsc" "ethereum" 0 0 0 0)
      "价差百分比" ≠ some (JVal.num ((4 - 3) / 3 * 100)) := by
  constructor
  · unfold calculate_arbitrage_cost
    rw [if_neg (by norm_num)]
    simp +decide only [dictLookup, if_true, if_false]
    norm_num [pyRound, roundHalfEven]
  · unfold calculate_arbitrage_cost
    rw [if_neg (by norm_num)]
    simp +decide only [dictLookup, if_true, if_false]
    norm_num [pyRound, roundHalfEven]

/-- Claim C5 (amended): for positive trade size and positive prices, each
returned field equals the claimed formula value rounded to 2 decimal places
(3 for the percentage fields); the claimed identities hold exactly on the
pre-rounding values. -/
theorem calculate_arbitrage_cost_fields (trade src dst : ℚ) (sc dc : String)
    (g1 g2 bf sl : ℚ) (htrade : 0 < trade) (hsrc : 0 < src) (hdst : 0 < dst) :
    dictLookup (calculate_arbitrage_cost trade src dst sc dc g1 g2 bf sl)
        "价差百分比"
      = some (JVal.num (pyRound ((dst - src) / src * 100) 3)) ∧
    dictLookup (calculate_arbitrage_cost trade src dst sc dc g1 g2 bf sl)
        "理论价差利润"
      = some (JVal.num (pyRound (trade * ((dst - src) / src * 100 / 100)) 2)) ∧
    dictLookup (calculate_arbitrage_cost trade src dst sc dc g1 g2 bf sl)
        "滑点损失"
      = some (JVal.num (pyRound (trade * (sl / 100)) 2)) ∧
    dictLookup (calculate_arbitrage_cost trade src dst sc dc g1 g2 bf sl)
        "总成本"
      = some (JVal.num (pyRound (g1 + g2 + bf + trade * (sl / 100)) 2)) ∧
    dictLookup (calculate_arbitrage_cost trade src dst sc dc g1 g2 bf sl)
        "预估净利润"
      = some (JVal.num (pyRound
          (trade * ((dst - src) / src * 100 / 100)
            - (g1 + g2 + bf + trade * (sl / 100))) 2)) ∧
    dictLookup (calculate_arbitrage_cost trade src dst sc dc g1 g2 bf sl)
        "预估净利润率"
      = some (JVal.num (pyRound
          ((trade * ((dst - src) / src * 100 / 100)
            - (g1 + g2 + bf + trade * (sl / 100))) / trade * 100) 3)) := by
  have h' : ¬(src ≤ 0 ∨ dst ≤ 0) := by push_neg; exact ⟨hsrc, hdst⟩
  unfold calculate_arbitrage_cost
  rw [if_neg h']
  refine ⟨?_, ?_, ?_, ?_, ?_, ?_⟩ <;> rfl

theorem calculate_arbitrage_cost_fields_witness :
    dictLookup (calculate_arbitrage_cost 1000 (95/100) (105/100) "bsc" "ethereum"
        0 0 0 0) "价差百分比"
      = some (JVal.num (pyRound (((105/100) - (95/100)) / (95/100) * 100) 3)) :=
  (calculate_arbitrage_cost_fields 1000 (95/100) (105/100) "bsc" "ethereum"
    0 0 0 0 (by norm_num) (by norm_num) (by norm_num)).1

/-- Claim C6 counterexample: with zero fixed costs and positive effective
edge, the break-even key holds `None` (the claim says it must be present as
a number whenever the denominator is positive, whatever the fixed costs). -/
theorem break_even_zero_fixed_cost_counterexample :
    dictLookup (calculate_arbitrage_cost 1000 1 2 "bsc" "ethereum" 0 0 0 0)
      "盈亏平衡资金规模" = some JVal.null ∧
    ((2 - 1 : ℚ) / 1 * 100 - 0 > 0) ∧
    JVal.null ≠ JVal.num ((0 : ℚ) * 100 / ((2 - 1) / 1 * 100 - 0)) := by
  refine ⟨?_, by norm_num, by simp⟩
  unfold calculate_arbitrage_cost
  rw [if_neg (by norm_num)]
  simp +decide only [dictLookup, if_true, if_false]
  norm_num

/-- Claim C6 (amended): for positive prices, the break-even field holds the
number `round(fixed_cost*100/(spread_pct-slippage_pct), 2)` exactly when
both the denominator and the fixed cost `gas_src+gas_dst+bridge_fee` are
positive, and holds `None` otherwise. -/
theorem break_even_characterisation (trade src dst : ℚ) (sc dc : String)
    (g1 g2 bf sl : ℚ) (hsrc : 0 < src) (hdst : 0 < dst) :
    ((dst - src) / src * 100 - sl > 0 ∧ g1 + g2 + bf > 0 →
      dictLookup (calculate_arbitrage_cost trade src dst sc dc g1 g2 bf sl)
          "盈亏平衡资金规模"
        = some (JVal.num (pyRound
            ((g1 + g2 + bf) * 100 / ((dst - src) / src * 100 - sl)) 2))) ∧
    (¬((dst - src) / src * 100 - sl > 0 ∧ g1 + g2 + bf > 0) →
      dictLookup (calculate_arbitrage_cost trade src dst sc dc g1 g2 bf sl)
          "盈亏平衡资金规模"
        = some JVal.null) := by
  have h' : ¬(src ≤ 0 ∨ dst ≤ 0) := by push_neg; exact ⟨hsrc, hdst⟩
  unfold calculate_arbitrage_cost
  rw [if_neg h']
  constructor
  · intro hc
    dsimp only
    rw [if_pos hc]
    simp +decide only [dictLookup, if_true, if_false]
  · intro hc
    dsimp only
    rw [if_neg hc]
    simp +decide only [dictLookup, if_true, if_false]

theorem break_even_characterisation_witness :
    dictLookup (calculate_arbitrage_cost 1000 1 2 "bsc" "ethereum" 1 1 5 0)
        "盈亏平衡资金规模"
      = some (JVal.num (pyRound ((1 + 1 + 5) * 100 / ((2 - 1) / 1 * 100 - 0)) 2)) :=
  (break_even_characterisation 1000 1 2 "bsc" "ethereum" 1 1 5 0
    (by norm_num) (by norm_num)).1 (by norm_num)

theorem RateLimiter.refill_inv (rps burst : ℚ) (hr : 0 < rps)
    (s : RateLimiter) (now : ℚ)
    (h0 : 0 ≤ s.tokens) (h1 : s.tokens ≤ burst)
    (h3 : min burst (rps * (s.last_refill_time - s.last_request_time)) ≤ s.tokens)
    (hb0 : 0 ≤ burst)
    (hnow : s.last_refill_time ≤ now) :
    0 ≤ (RateLimiter.refill_tokens rps burst s now).tokens ∧
    (RateLimiter.refill_tokens rps burst s now).tokens ≤ burst ∧
    (RateLimiter.refill_tokens rps burst s now).last_request_time
      = s.last_request_time ∧
    (RateLimiter.refill_tokens rps burst s now).last_refill_time = now ∧
    min burst (rps * (now - s.last_request_time))
      ≤ (RateLimiter.refill_tokens rps burst s now).tokens ∧
    (RateLimiter.refill_tokens rps burst s now).total_requests
      = s.total_requests ∧
    (RateLimiter.refill_tokens rps burst s now).rate_limited_count
      = s.rate_limited_count := by
  unfold RateLimiter.refill_tokens
  by_cases he : now - s.last_refill_time > 0
  · rw [if_pos he]
    have hd : 0 ≤ (now - s.last_refill_time) * rps :=
      mul_nonneg (le_of_lt he) (le_of_lt hr)
    refine ⟨le_min hb0 (by linarith), min_le_left _ _, rfl, rfl, ?_, rfl, rfl⟩
    rcases min_cases burst (rps * (s.last_refill_time - s.last_request_time))
      with ⟨hmin, hle⟩ | ⟨hmin, hlt⟩
    · rw [hmin] at h3
      have : burst ≤ s.tokens + (now - s.last_refill_time) * rps := by linarith
      calc min burst (rps * (now - s.last_request_time)) ≤ burst :=
            min_le_left _ _
        _ = min burst (s.tokens + (now - s.last_refill_time) * rps) :=
            (min_eq_left this).symm
        _ ≤ min burst (s.tokens + (now - s.last_refill_time) * rps) := le_rfl
    · rw [hmin] at h3
      have hX : rps * (now - s.last_request_time)
          ≤ s.tokens + (now - s.last_refill_time) * rps := by nlinarith
      exact le_trans (min_le_min le_rfl hX)
        (min_le_min le_rfl le_rfl)
  · rw [if_neg he]
    have hnow' : now = s.last_refill_time := by
      have : now - s.last_refill_time ≤ 0 := not_lt.mp he
      linarith
    exact ⟨h0, h1, rfl, hnow'.symm, by rw [hnow']; exact h3, rfl, rfl⟩

/-- Claim C1: for a limiter with positive refill rate and burst capacity at
least one token, every sequence of `acquire` calls — whatever the elapsed
times between calls and whether `wait` is true or false — keeps the
available token count within `[0, capacity]` (`capacity = burst_size`). -/
theorem rate_limiter_tokens_in_range (rps burst : ℚ) (hr : 0 < rps)
    (hb : 1 ≤ burst) (s : RateLimiter)
    (h : RateLimiter.Reach rps burst s) :
    0 ≤ s.tokens ∧ s.tokens ≤ burst := by
  have hb0 : 0 ≤ burst := le_trans zero_le_one hb
  suffices hinv : RateLimiter.Inv rps burst s from ⟨hinv.1, hinv.2.1⟩
  induction h with
  | init t0 =>
    exact ⟨hb0, le_rfl, min_le_left _ _⟩
  | step s now t2 wait hreach hrf hrq hsleep ih =>
    obtain ⟨ih0, ih1, ih3⟩ := ih
    obtain ⟨r0, r1, rq, rf, r3, _, _⟩ :=
      RateLimiter.refill_inv rps burst hr s now ih0 ih1 ih3 hb0 hrf
    set s1 := RateLimiter.refill_tokens rps burst s now with hs1
    unfold RateLimiter.acquire
    rw [← hs1]
    by_cases hge : s1.tokens ≥ 1
    · rw [if_pos hge]
      unfold RateLimiter.Inv
      dsimp only
      refine ⟨by linarith, by linarith, ?_⟩
      have hmin0 : min burst (rps * (s1.last_refill_time - now)) ≤ 0 := by
        rw [rf, sub_self, mul_zero]; exact min_le_right _ _
      linarith
    · rw [if_neg hge]
      push_neg at hge
      by_cases hw : 1 / rps - (now - s1.last_request_time) > 0
      · rw [if_pos hw]
        cases wait with
        | false =>
          simp only [Bool.false_eq_true, if_false]
          unfold RateLimiter.Inv
          dsimp only
          exact ⟨r0, r1, by rw [rf, rq]; exact r3⟩
        | true =>
          simp only [if_true]
          have hrf2 : s1.last_refill_time ≤ t2 := by
            rw [rf]; rw [rq] at hw
            linarith
          obtain ⟨u0, u1, uq, uf, u3, _, _⟩ :=
            RateLimiter.refill_inv rps burst hr s1 t2 r0 r1
              (by rw [rf, rq]; exact r3) hb0 hrf2
          set s2 := RateLimiter.refill_tokens rps burst s1 t2 with hs2
          by_cases hge2 : s2.tokens ≥ 1
          · rw [if_pos hge2]
            unfold RateLimiter.Inv
            dsimp only
            refine ⟨by linarith, by linarith, ?_⟩
            have hmin0 : min burst (rps * (s2.last_refill_time - t2)) ≤ 0 := by
              rw [uf, sub_self, mul_zero]; exact min_le_right _ _
            linarith
          · rw [if_neg hge2]
            unfold RateLimiter.Inv
            dsimp only
            exact ⟨u0, u1, by rw [uf, uq]; exact u3⟩
      · rw [if_neg hw]
        push_neg at hw
        have hlarge : (1:ℚ) ≤ rps * (now - s1.last_request_time) := by
          have h1rps : 1 / rps ≤ now - s1.last_request_time := by linarith
          calc (1:ℚ) = rps * (1 / rps) := by field_simp
            _ ≤ rps * (now - s1.last_request_time) :=
                mul_le_mul_of_nonneg_left h1rps (le_of_lt hr)
        have hmin1 : (1:ℚ) ≤ min burst (rps * (now - s1.last_request_time)) :=
          le_min hb hlarge
        have htok1 : (1:ℚ) ≤ s1.tokens := by
          rw [rq] at hmin1
          exact le_trans hmin1 r3
        unfold RateLimiter.Inv
        dsimp only
        refine ⟨by linarith, by linarith, ?_⟩
        have hmin0 : min burst (rps * (s1.last_refill_time - now)) ≤ 0 := by
          rw [rf, sub_self, mul_zero]; exact min_le_right _ _
        linarith

theorem rate_limiter_tokens_in_range_witness :
    0 ≤ ((RateLimiter.acquire 4 10 (RateLimiter.init 10 0) 1 2 true).1).tokens ∧
    ((RateLimiter.acquire 4 10 (RateLimiter.init 10 0) 1 2 true).1).tokens ≤ 10 :=
  rate_limiter_tokens_in_range 4 10 (by norm_num) (by norm_num) _
    (RateLimiter.Reach.step (RateLimiter.init 10 0) 1 2 true
      (RateLimiter.Reach.init 0)
      (by norm_num [RateLimiter.init])
      (by norm_num [RateLimiter.init])
      (by norm_num [RateLimiter.init]))

/-- Claim C2 (failing input for the claim): with every attempt returning
HTTP 500 and `max_retries = 3`, the fetcher does NOT fail immediately: the
`HTTPError` raised by `raise_for_status` is caught by the generic
`RequestException` handler, so three backoff sleeps (1s, 2s, 4s) and three
further requests happen before the error is re-raised.  The claim (and the
code's own comment at line 283) say a non-429 HTTP error fails immediately
with no retry, i.e. an empty sleep list. -/
theorem non_429_http_error_is_retried :
    make_rate_limited_request (fun _ => Attempt.response 500 RetryAfterHeader.absent) 3
      = (FetchOutcome.raiseHTTPError 500, [1, 2, 4]) := by
  show fetchGo 3 _ 0 4 = _
  norm_num [fetchGo, backoff429, API_RATE_LIMIT_BACKOFF_FACTOR]

/-- Claim C8: when the attempt at index `k` is a 429 response carrying a
numeric `Retry-After` value `q` and retry attempts remain (`k < max`), the
fetcher sleeps exactly `q` — the header value, not the exponential backoff —
and then proceeds to the next attempt. -/
theorem retry_after_header_honoured (max : ℕ) (att : ℕ → Attempt) (k fuel : ℕ)
    (q : ℚ) (hk : k < max) (hatt : att k = Attempt.response 429 (RetryAfterHeader.numeric q)) :
    fetchGo max att k (fuel + 1)
      = ((fetchGo max att (k + 1) fuel).1,
         q :: (fetchGo max att (k + 1) fuel).2) := by
  have hnk : ¬ k > max := by omega
  simp only [fetchGo, hatt, if_neg hnk, if_pos rfl, if_pos hk, backoff429,
    if_true]

theorem retry_after_header_honoured_witness :
    fetchGo 3 (fun _ => Attempt.response 429 (RetryAfterHeader.numeric 2)) 0 4
      = ((fetchGo 3 (fun _ => Attempt.response 429 (RetryAfterHeader.numeric 2)) 1 3).1,
         2 :: (fetchGo 3 (fun _ => Attempt.response 429 (RetryAfterHeader.numeric 2)) 1 3).2) :=
  retry_after_header_honoured 3 _ 0 3 2 (by norm_num) rfl

/-- Claim C3 counterexample: `is_expired` is a strict comparison
(`time.time() > expire_time`), so a `get` exactly `T` seconds after
`set(k, v, T)` still returns `v`; the claim says it must already be a miss
at `elapsed = T`.  Concretely: set at time 0 with ttl 5, get at time 5. -/
theorem cache_hit_at_exact_ttl :
    (((APICache.empty (α := ℚ)).set "k" 1 5 0).get "k" 5).1 = some 1 ∧
    ((5 : ℚ) - 0 ≥ 5) := by
  constructor
  · simp [APICache.empty, APICache.set, APICache.get, CacheEntry.make,
      CacheEntry.is_expired]
  · norm_num

/-- Claim C3 (amended): a `get(k)` performed `elapsed` seconds after
`set(k, v, T)` returns `v` whenever `elapsed ≤ T` and reports a miss
whenever `elapsed > T`; the boundary `elapsed = T` is still a hit because
expiry is the strict comparison `now > expire_time`. -/
theorem cache_get_after_set (α : Type) (c : APICache α) (k : String) (v : α)
    (T t elapsed : ℚ) :
    (elapsed ≤ T → ((c.set k v T t).get k (t + elapsed)).1 = some v) ∧
    (elapsed > T → ((c.set k v T t).get k (t + elapsed)).1 = none) := by
  constructor
  · intro h
    have hlt : ¬ (t + T < t + elapsed) := by linarith
    simp [APICache.set, APICache.get, CacheEntry.make, CacheEntry.is_expired,
      hlt]
  · intro h
    have hlt : t + T < t + elapsed := by linarith
    simp [APICache.set, APICache.get, CacheEntry.make, CacheEntry.is_expired,
      hlt]

theorem cache_get_after_set_witness :
    (((APICache.empty (α := ℚ)).set "k" 7 5 0).get "k" (0 + 3)).1 = some 7 ∧
    (((APICache.empty (α := ℚ)).set "k" 7 5 0).get "k" (0 + 9)).1 = none :=
  ⟨(cache_get_after_set ℚ APICache.empty "k" 7 5 0 3).1 (by norm_num),
   (cache_get_after_set ℚ APICache.empty "k" 7 5 0 9).2 (by norm_num)⟩

/-- Claim C10: the wrapper stores a computed result only when it is not
`None`: a call whose result is `None` leaves the cache exactly as the
initial `get` left it (no write), the next call with the same arguments
re-invokes the wrapped function, and a cache hit (a call that did not invoke
the function) never yields `None`. -/
theorem cached_never_stores_none (β : Type) (func : ℤ → Option β)
    (funcName : String) (ttl : Option ℚ) (c : APICache (Option β))
    (now now2 : ℚ) (argsHash : ℤ) :
    ((cachedCall func funcName ttl c now argsHash).result = none →
      (cachedCall func funcName ttl c now argsHash).cache
        = (c.get (cacheKey funcName argsHash) now).2) ∧
    ((cachedCall func funcName ttl c now argsHash).result = none →
      (cachedCall func funcName ttl
        (cachedCall func funcName ttl c now argsHash).cache now2 argsHash).invoked
        = true) ∧
    ((cachedCall func funcName ttl c now argsHash).invoked = false →
      ∃ v, (cachedCall func funcName ttl c now argsHash).result = some v) := by
  unfold cachedCall APICache.get
  rcases hc : c.cache (cacheKey funcName argsHash) with _ | entry
  · rcases hf : func argsHash with _ | r
    · refine ⟨?_, ?_, ?_⟩ <;> simp [hc, hf]
    · refine ⟨?_, ?_, ?_⟩ <;> simp [hc, hf]
  · by_cases hexp : entry.is_expired now
    · rcases hf : func argsHash with _ | r
      · refine ⟨?_, ?_, ?_⟩ <;> simp [hc, hf, hexp]
      · refine ⟨?_, ?_, ?_⟩ <;> simp [hc, hf, hexp]
    · rcases hv : entry.value with _ | v
      · rcases hf : func argsHash with _ | r
        · by_cases hexp2 : entry.is_expired now2
          · refine ⟨?_, ?_, ?_⟩ <;> simp [hc, hf, hv, hexp, hexp2]
          · refine ⟨?_, ?_, ?_⟩ <;> simp [hc, hf, hv, hexp, hexp2]
        · refine ⟨?_, ?_, ?_⟩ <;> simp [hc, hf, hv, hexp]
      · refine ⟨?_, ?_, ?_⟩ <;> simp [hc, hv, hexp]

theorem cached_never_stores_none_witness :
    (cachedCall (fun _ => (none : Option ℚ)) "get_lifi_gas_prices" (some 30)
        APICache.empty 0 5).result = none ∧
    (cachedCall (fun _ => (none : Option ℚ)) "get_lifi_gas_prices" (some 30)
      (cachedCall (fun _ => (none : Option ℚ)) "get_lifi_gas_prices" (some 30)
        APICache.empty 0 5).cache 1 5).invoked = true := by
  have hres : (cachedCall (fun _ => (none : Option ℚ)) "get_lifi_gas_prices"
      (some 30) APICache.empty 0 5).result = none := by
    simp [cachedCall, APICache.get, APICache.empty]
  exact ⟨hres,
    (cached_never_stores_none ℚ (fun _ => none) "get_lifi_gas_prices"
      (some 30) APICache.empty 0 1 5).2.1 hres⟩

theorem str_append_ne_empty (s t : String) (h : s ≠ "") : s ++ t ≠ "" := by
  cases s with
  | mk sd =>
    cases t with
    | mk td =>
      intro he
      apply h
      have hd : sd ++ td = ([] : List Char) := congrArg String.data he
      have hs : sd = [] := (List.append_eq_nil.mp hd).1
      rw [hs]

theorem pyJoin_ne_empty (sep : String) (l : List String) (hl : l ≠ [])
    (h : ∀ x ∈ l, x ≠ "") : pyJoin sep l ≠ "" := by
  match l with
  | [] => exact absurd rfl hl
  | [a] => exact h a (by simp)
  | a :: b :: rest =>
    show a ++ sep ++ pyJoin sep (b :: rest) ≠ ""
    exact str_append_ne_empty _ _ (str_append_ne_empty _ _ (h a (by simp)))

theorem mem_ite_singleton {c : Prop} [inst : Decidable c] {s x : String}
    (hx : x ∈ (if c then [s] else [])) : x = s := by
  split at hx
  · simpa using hx
  · simp at hx

theorem lifiNotOkReason_ne_empty (w : World) (sc dc : String) (si di : ℤ)
    (status : ℕ) (body : LifiErrorBody) :
    lifiNotOkReason w sc dc si di status body ≠ "" := by
  unfold lifiNotOkReason
  rcases body with text | ⟨message, code⟩
  · repeat' apply str_append_ne_empty
    decide
  · dsimp only
    repeat' split
    all_goals repeat' apply str_append_ne_empty
    all_goals decide

/-- Every run of the refinement checks either fails early with a nonempty
skip reason, or passes every precondition with a successful, parseable
quote. -/
theorem refineChecks_cases (w : World) (src dst : Status) (trade : ℚ) :
    (∃ r, r ≠ "" ∧ refineChecks w src dst trade = Except.error r) ∨
    (∃ data n, w.quote = LifiQuoteResponse.ok data ∧
      data.estimate.toAmount = ToAmountField.val n ∧
      dictGetInt CHAIN_NAME_TO_ID src.chain
        ≠ dictGetInt CHAIN_NAME_TO_ID dst.chain ∧
      refineChecks w src dst trade = Except.ok (data, n)) := by
  unfold refineChecks
  dsimp only
  by_cases h1 : refineMissingItems src dst ≠ []
  · rw [if_pos h1]
    left
    refine ⟨_, ?_, rfl⟩
    refine pyJoin_ne_empty _ _ h1 ?_
    intro x hx
    have hx4 : x = "源链 " ++ src.chain ++ " 不在 chainId 映射表中"
        ∨ x = "目标链 " ++ dst.chain ++ " 不在 chainId 映射表中"
        ∨ x = "源 token 地址为空（symbol: " ++ pyShowOptStr src.symbol ++ "）"
        ∨ x = "目标 token 地址为空（symbol: " ++ pyShowOptStr dst.symbol ++ "）" := by
      unfold refineMissingItems at hx
      rcases List.mem_append.mp hx with h | h
      · rcases List.mem_append.mp h with h | h
        · rcases List.mem_append.mp h with h | h
          · exact Or.inl (mem_ite_singleton h)
          · exact Or.inr (Or.inl (mem_ite_singleton h))
        · exact Or.inr (Or.inr (Or.inl (mem_ite_singleton h)))
      · exact Or.inr (Or.inr (Or.inr (mem_ite_singleton h)))
    rcases hx4 with rfl | rfl | rfl | rfl <;>
      exact str_append_ne_empty _ _ (str_append_ne_empty _ _ (by decide))
  · rw [if_neg h1]
    by_cases h2 : dictGetInt CHAIN_NAME_TO_ID src.chain
        = dictGetInt CHAIN_NAME_TO_ID dst.chain
    · rw [if_pos h2]
      left
      refine ⟨_, ?_, rfl⟩
      repeat' apply str_append_ne_empty
      decide
    · rw [if_neg h2]
      by_cases h3 : (src.token_address.getD "").toLower.trim
          = (dst.token_address.getD "").toLower.trim
      · rw [if_pos h3]
        left
        refine ⟨_, ?_, rfl⟩
        repeat' apply str_append_ne_empty
        decide
      · rw [if_neg h3]
        by_cases h4 : src.price ≤ 0 ∨ dst.price ≤ 0
        · rw [if_pos h4]
          left
          exact ⟨_, by decide, rfl⟩
        · rw [if_neg h4]
          by_cases h5 : (match w.config with
              | none => ""
              | some gcfg => gcfg.lifi_from_address.trim).length < 10
          · rw [if_pos h5]
            left
            exact ⟨_, by decide, rfl⟩
          · rw [if_neg h5]
            cases hq : w.quote with
            | raised msg =>
              dsimp only
              left
              refine ⟨_, ?_, rfl⟩
              repeat' apply str_append_ne_empty
              decide
            | notOk status body =>
              dsimp only
              left
              exact ⟨_, lifiNotOkReason_ne_empty _ _ _ _ _ _ _, rfl⟩
            | ok data =>
              dsimp only
              cases hta : data.estimate.toAmount with
              | missing =>
                dsimp only
                left
                exact ⟨_, by decide, rfl⟩
              | unparsable s =>
                dsimp only
                left
                refine ⟨_, ?_, rfl⟩
                repeat' apply str_append_ne_empty
                decide
              | val n =>
                dsimp only
                right
                exact ⟨data, n, rfl, hta, h2, rfl⟩

theorem skipShape_of_error (w : World) (src dst : Status) (trade : ℚ)
    (base : Dict) (r : String) (hr : r ≠ "")
    (h : refineChecks w src dst trade = Except.error r) :
    SkipShape w src dst trade base := by
  refine ⟨r, hr, ?_, ?_, ?_⟩
  · unfold refine_cost_with_lifi
    rw [h]
  · unfold refine_cost_with_lifi
    rw [h]
    exact dictSet_lookup_self base LIFI_SKIP_KEY (JVal.str r)
  · intro k hk
    unfold refine_cost_with_lifi
    rw [h]
    exact dictSet_lookup_ne base LIFI_SKIP_KEY k (JVal.str r) hk

/-- Claim C7: (1) whenever the two statuses map to the same network id,
refinement returns the base cost detail unchanged except for a populated
skip-reason field (and, the embedding being total, never raises);
(2) the same holds whenever the quote request does not come back ok (HTTP
error or raised request), and (3) whenever the ok response is malformed
(missing `estimate.toAmount`) — in every such case the original fields are
untouched and only the skip reason is added. -/
theorem refine_failure_preserves_base :
    (∀ (w : World) (src dst : Status) (trade : ℚ) (base : Dict) (i : ℤ),
      dictGetInt CHAIN_NAME_TO_ID src.chain = some i →
      dictGetInt CHAIN_NAME_TO_ID dst.chain = some i →
      SkipShape w src dst trade base) ∧
    (∀ (w : World) (src dst : Status) (trade : ℚ) (base : Dict),
      (∀ data, w.quote ≠ LifiQuoteResponse.ok data) →
      SkipShape w src dst trade base) ∧
    (∀ (w : World) (src dst : Status) (trade : ℚ) (base : Dict)
      (data : LifiData),
      w.quote = LifiQuoteResponse.ok data →
      data.estimate.toAmount = ToAmountField.missing →
      SkipShape w src dst trade base) := by
  refine ⟨?_, ?_, ?_⟩
  · intro w src dst trade base i hsrc hdst
    rcases refineChecks_cases w src dst trade with ⟨r, hr, herr⟩ |
      ⟨data, n, _, _, hneq, _⟩
    · exact skipShape_of_error w src dst trade base r hr herr
    · exact absurd (hsrc.trans hdst.symm) hneq
  · intro w src dst trade base hq
    rcases refineChecks_cases w src dst trade with ⟨r, hr, herr⟩ |
      ⟨data, n, hdata, _, _, _⟩
    · exact skipShape_of_error w src dst trade base r hr herr
    · exact absurd hdata (hq data)
  · intro w src dst trade base data hdata hta
    rcases refineChecks_cases w src dst trade with ⟨r, hr, herr⟩ |
      ⟨data2, n, hdata2, hta2, _, _⟩
    · exact skipShape_of_error w src dst trade base r hr herr
    · rw [hdata] at hdata2
      cases LifiQuoteResponse.ok.inj hdata2
      rw [hta] at hta2
      exact absurd hta2 (by simp)

theorem refine_failure_preserves_base_witness :
    SkipShape
      ⟨none, LifiQuoteResponse.raised "connection reset", fun _ => none, none⟩
      ⟨"USDT", "bsc", 1, some "0xaa11223344", none, none⟩
      ⟨"USDT", "bsc", 2, some "0xbb11223344", none, none⟩
      5000
      [("预估净利润", JVal.num 10)] :=
  refine_failure_preserves_base.1
    ⟨none, LifiQuoteResponse.raised "connection reset", fun _ => none, none⟩
    ⟨"USDT", "bsc", 1, some "0xaa11223344", none, none⟩
    ⟨"USDT", "bsc", 2, some "0xbb11223344", none, none⟩
    5000
    [("预估净利润", JVal.num 10)]
    56 (by decide) (by decide)

theorem pyMinByPrice_price_eq (p : ℚ) (x : Status) (xs : List Status)
    (hx : x.price = p) (hxs : ∀ s ∈ xs, s.price = p) :
    (pyMinByPrice x xs).price = p := by
  induction xs generalizing x with
  | nil => exact hx
  | cons b tl ih =>
    have hb : b.price = p := hxs b (by simp)
    have htl : ∀ s ∈ tl, s.price = p := fun s hs => hxs s (by simp [hs])
    show (pyMinByPrice (if b.price < x.price then b else x) tl).price = p
    apply ih
    · by_cases h : b.price < x.price
      · rw [if_pos h]; exact hb
      · rw [if_neg h]; exact hx
    · exact htl

theorem pyMaxByPrice_price_eq (p : ℚ) (x : Status) (xs : List Status)
    (hx : x.price = p) (hxs : ∀ s ∈ xs, s.price = p) :
    (pyMaxByPrice x xs).price = p := by
  induction xs generalizing x with
  | nil => exact hx
  | cons b tl ih =>
    have hb : b.price = p := hxs b (by simp)
    have htl : ∀ s ∈ tl, s.price = p := fun s hs => hxs s (by simp [hs])
    show (pyMaxByPrice (if b.price > x.price then b else x) tl).price = p
    apply ih
    · by_cases h : b.price > x.price
      · rw [if_pos h]; exact hb
      · rw [if_neg h]; exact hx
    · exact htl

theorem groupStep_preserves (P : Status → Prop)
    (acc : List (String × List Status)) (a : Status)
    (hacc : ∀ g ∈ acc, ∀ s ∈ g.2, P s) (ha : P a) :
    ∀ g ∈ groupStep acc a, ∀ s ∈ g.2, P s := by
  intro g hg s hs
  unfold groupStep at hg
  split at hg
  · obtain ⟨q, hq, hgq⟩ := List.mem_map.mp hg
    by_cases hqn : q.1 = a.name
    · rw [if_pos hqn] at hgq
      rw [← hgq] at hs
      rcases List.mem_append.mp hs with h | h
      · exact hacc q hq s h
      · rw [List.mem_singleton.mp h]; exact ha
    · rw [if_neg hqn] at hgq
      rw [← hgq] at hs
      exact hacc q hq s hs
  · rcases List.mem_append.mp hg with h | h
    · exact hacc g h s hs
    · rw [List.mem_singleton.mp h] at hs
      rw [List.mem_singleton.mp hs]
      exact ha

theorem groupByName_mem (P : Status → Prop) (statuses : List Status)
    (hP : ∀ s ∈ statuses, P s) :
    ∀ g ∈ groupByName statuses, ∀ s ∈ g.2, P s := by
  unfold groupByName
  suffices hgen : ∀ (l : List Status) (acc : List (String × List Status)),
      (∀ g ∈ acc, ∀ s ∈ g.2, P s) → (∀ s ∈ l, P s) →
      ∀ g ∈ l.foldl groupStep acc, ∀ s ∈ g.2, P s by
    exact hgen statuses [] (by simp) hP
  intro l
  induction l with
  | nil => intro acc hacc _; exact hacc
  | cons a tl ih =>
    intro acc hacc hl
    show ∀ g ∈ tl.foldl groupStep (groupStep acc a), ∀ s ∈ g.2, P s
    exact ih (groupStep acc a)
      (groupStep_preserves P acc a hacc (hl a (by simp)))
      (fun s hs => hl s (by simp [hs]))

theorem scanStep_same_price (w : World)
    (trade g1 g2 bf sl mp mr ms : ℚ) (p : ℚ)
    (opps : List ArbitrageOpportunity) (group : String × List Status)
    (hg : ∀ s ∈ group.2, s.price = p) :
    scanStep w trade g1 g2 bf sl mp mr ms opps group = opps := by
  unfold scanStep
  by_cases hlen : group.2.length < 2
  · rw [if_pos hlen]
  · rw [if_neg hlen]
    rcases hlst : group.2 with _ | ⟨x, xs⟩
    · rfl
    · dsimp only
      have hx : x.price = p := hg x (by rw [hlst]; simp)
      have hxs : ∀ s ∈ xs, s.price = p := fun s hs =>
        hg s (by rw [hlst]; simp [hs])
      rw [if_pos (by
        rw [pyMinByPrice_price_eq p x xs hx hxs,
          pyMaxByPrice_price_eq p x xs hx hxs])]

theorem foldl_scanStep_same_price (w : World)
    (trade g1 g2 bf sl mp mr ms p : ℚ)
    (groups : List (String × List Status))
    (h : ∀ g ∈ groups, ∀ s ∈ g.2, s.price = p)
    (acc : List ArbitrageOpportunity) :
    groups.foldl (scanStep w trade g1 g2 bf sl mp mr ms) acc = acc := by
  induction groups generalizing acc with
  | nil => rfl
  | cons g tl ih =>
    show tl.foldl _ (scanStep w trade g1 g2 bf sl mp mr ms acc g) = acc
    rw [scanStep_same_price w trade g1 g2 bf sl mp mr ms p acc g
      (h g (by simp))]
    exact ih (fun g' hg' => h g' (by simp [hg'])) acc

/-- Claim C4 counterexample: two records of the same asset on the *same*
chain with different prices produce a non-empty opportunity list (whose
cheap and rich chains coincide), because grouping is by asset name only and
the guard merely requires two records, not two chains. -/
theorem same_chain_two_records_counterexample :
    find_arbitrage_opportunities
      ⟨none, LifiQuoteResponse.raised "offline", fun _ => none, none⟩
      [⟨"USDT", "bsc", 1, none, none, none⟩,
       ⟨"USDT", "bsc", 2, none, none, none⟩]
      1000 0 0 0 0 1 (1/100) (1/10) ≠ [] := by
  intro h
  have hlen := congrArg List.length h
  rw [find_arbitrage_opportunities] at hlen
  revert hlen
  norm_num [groupByName, groupStep, scanStep, pyMinByPrice, pyMaxByPrice,
    sortByNetProfitDesc, calculate_arbitrage_cost, refine_cost_with_lifi,
    refineChecks, refineMissingItems, pyFalsyId, pyFalsyStr, dictGetInt,
    CHAIN_NAME_TO_ID, pyJoin, pyShowOptStr, skipWith, dictSet, pyGetNum,
    dictLookup, pyRound, roundHalfEven, MIN_LIQUIDITY_USD]
  simp +decide only [if_true, if_false]
  norm_num

/-- Claim C4 (amended): when all records carry the same asset name and the
same chain, the scan returns an empty list provided they also all carry the
same price; with several same-chain records at different prices the scanner
can emit an opportunity whose cheap and rich chains coincide (grouping is
by asset name only and the guard requires only two records). -/
theorem scan_same_name_chain_price_empty (w : World)
    (statuses : List Status) (trade g1 g2 bf sl mp mr ms : ℚ)
    (n c : String) (p : ℚ)
    (h : ∀ s ∈ statuses, s.name = n ∧ s.chain = c ∧ s.price = p) :
    find_arbitrage_opportunities w statuses trade g1 g2 bf sl mp mr ms
      = [] := by
  unfold find_arbitrage_opportunities
  dsimp only
  rw [foldl_scanStep_same_price w trade g1 g2 bf sl mp mr ms p
    (groupByName statuses)
    (groupByName_mem (fun s => s.price = p) statuses
      (fun s hs => (h s hs).2.2))]
  simp [sortByNetProfitDesc]

theorem scan_same_name_chain_price_empty_witness :
    find_arbitrage_opportunities
      ⟨none, LifiQuoteResponse.raised "offline", fun _ => none, none⟩
      [⟨"USDT", "bsc", 1, none, none, none⟩,
       ⟨"USDT", "bsc", 1, none, none, none⟩]
      1000 0 0 0 0 1 (1/100) (1/10) = [] :=
  scan_same_name_chain_price_empty
    ⟨none, LifiQuoteResponse.raised "offline", fun _ => none, none⟩
    [⟨"USDT", "bsc", 1, none, none, none⟩,
     ⟨"USDT", "bsc", 1, none, none, none⟩]
    1000 0 0 0 0 1 (1/100) (1/10) "USDT" "bsc" 1
    (by
      intro s hs
      simp only [List.mem_cons, List.not_mem_nil, or_false] at hs
      rcases hs with rfl | rfl <;> exact ⟨rfl, rfl, rfl⟩)

end Taoli
